import Mathlib

/-!
Verification of the calendar availability engine of the meeting-assistant
repository (src/tools.py, src/meeting_assistant.py, src/ms_graph_service.py).

Modelling conventions (shallow embedding):

* An instant is an `Int`, the number of seconds since midnight of the
  requested day.  `datetime.timedelta(minutes=m)` is `60 * m` seconds, and the
  test `(b - a).total_seconds() / 60 >= required_min` is embedded exactly as
  `60 * required_min ≤ b - a` (the two are equivalent over the rationals).
* A raw Graph `getSchedule` payload is its `"value"` array: a list of
  schedules, each being its list of `scheduleItems`.  A schedule item carries
  a status string and the results of `dateutil.parser.isoparse` on its
  `start.dateTime` / `end.dateTime` fields; `none` stands for a missing or
  unparsable timestamp (`isoparse` raising).
* Python code that can raise is embedded in `Except String`; an
  `Except.error` value stands for the exception propagating to the caller.
-/

/-- One entry of `scheduleItems` in the Graph schedule response:
`{status, start: {dateTime}, end: {dateTime}}`.  `startT`/`endT` are the
parse results of the two timestamps (`none` = missing or unparsable). -/
structure Item where
  status : String
  startT : Option Int
  endT : Option Int
deriving DecidableEq, Repr

/-- Lower-casing of an ASCII status string, `str.lower()` on the statuses
that occur in schedule payloads. -/
def lowerString (s : String) : String :=
  String.mk (s.data.map Char.toLower)

/-- The blocking-status test
`status.lower() in ("busy", "oof", "tentative")`
(tools.py line 67, meeting_assistant.py line 136). -/
def blocking (status : String) : Bool :=
  let l := lowerString status
  l == "busy" || l == "oof" || l == "tentative"

/-- The item list `payload["value"][0].get("scheduleItems", [])` when
`payload["value"]` is a non-empty list, else `[]` (tools.py lines 59-61). -/
def scheduleItems (payload : List (List Item)) : List Item :=
  match payload with
  | [] => []
  | s :: _ => s

/-- Stable insertion of a busy period into a list sorted by start instant;
together with `sortByStart` this is extensionally Python's stable
`busy_periods.sort(key=lambda x: x[0])`. -/
def insertByStart (x : Int × Int) : List (Int × Int) → List (Int × Int)
  | [] => [x]
  | y :: ys => if x.1 ≤ y.1 then x :: y :: ys else y :: insertByStart x ys

/-- Stable sort of busy periods by start instant
(`busy_periods.sort(key=lambda x: x[0])`, tools.py line 73). -/
def sortByStart : List (Int × Int) → List (Int × Int)
  | [] => []
  | x :: xs => insertByStart x (sortByStart xs)

namespace Tools

/-- A slot dictionary emitted by `_free_slots_from_schedule` in tools.py
(`start`, `end`, `maxEnd`, `duration_min`; the `start_time`/`end_time`
display strings are rendering glue and not modelled).  `stop` is the
dictionary's `"end"` field (`end` is reserved in Lean). -/
structure Slot where
  start : Int
  stop : Int
  maxEnd : Int
  duration_min : Int
deriving DecidableEq, Repr

/-- Busy-period extraction of tools.py `_free_slots_from_schedule`
(lines 63-70): every blocking item is parsed with no exception handler, so a
missing/unparsable timestamp on a blocking item raises out of the whole
extraction. -/
def busy_periods : List Item → Except String (List (Int × Int))
  | [] => .ok []
  | i :: rest =>
    if blocking i.status then
      match i.startT, i.endT with
      | some s, some e =>
        match busy_periods rest with
        | .ok r => .ok ((s, e) :: r)
        | .error msg => .error msg
      | _, _ => .error ("unparsable busy period")
    else busy_periods rest

/-- The sweep loop of tools.py `_free_slots_from_schedule` (lines 80-115):
the `for busy_start, busy_end in busy_periods` loop followed by the
trailing-gap check against `day_end`.  The accumulator `current` is
`current_time`. -/
def sweep (required_min day_end : Int) : List (Int × Int) → Int → List Slot
  | [], current =>
    if current < day_end then
      if 60 * required_min ≤ day_end - current then
        [⟨current, current + 60 * required_min, day_end, required_min⟩]
      else []
    else []
  | (busy_start, busy_end) :: rest, current =>
    (if current < busy_start then
      if 60 * required_min ≤ busy_start - current then
        [⟨current, min (current + 60 * required_min) busy_start, busy_start,
          required_min⟩]
      else []
    else [])
      ++ sweep required_min day_end rest (max current busy_end)

/-- tools.py `_free_slots_from_schedule` (lines 44-115): extract the busy
periods (propagating parse exceptions), sort them by start, and sweep from
`start_iso` to `day_end`. -/
def free_slots_from_schedule (payload : List (List Item))
    (start_iso day_end required_min : Int) : Except String (List Slot) :=
  match busy_periods (scheduleItems payload) with
  | .ok busy => .ok (sweep required_min day_end (sortByStart busy) start_iso)
  | .error msg => .error msg

/-- The input validation of tools.py `list_available_slots` (lines 136-138):
`working_start = max(0, min(23, working_start))` and
`working_end = max(working_start + 1, min(23, working_end))`. -/
def clamp_hours (working_start working_end : Int) : Int × Int :=
  let s := max 0 (min 23 working_start)
  let e := max (s + 1) (min 23 working_end)
  (s, e)

/-- tools.py `_iso_day_window` (lines 24-41): builds the same-day instants
`dt.time(hour=start_hour)` / `dt.time(hour=end_hour)`; `datetime.time`
raises `ValueError` unless the hour is in [0, 23], which `none` models. -/
def iso_day_window (start_hour end_hour : Int) : Option (Int × Int) :=
  if 0 ≤ start_hour ∧ start_hour ≤ 23 then
    if 0 ≤ end_hour ∧ end_hour ≤ 23 then
      some (3600 * start_hour, 3600 * end_hour)
    else none
  else none

/-- The hour validation of `list_available_slots` followed by
`_iso_day_window` on the clamped hours. -/
def window_after_validation (working_start working_end : Int) :
    Option (Int × Int) :=
  let p := clamp_hours working_start working_end
  iso_day_window p.1 p.2

/-- The fetch-and-generate part of tools.py `list_available_slots`
(lines 141-167).  `fetch` is the outcome of `ms_graph_service.get_schedule`,
which propagates network failures as exceptions (`Except.error`).  The
surrounding `try/except` turns any exception into the result
`{"error": "Failed to retrieve schedule: ...", "available_slots": []}`,
modelled as `(some errorMessage, [])`; a success is `(none, slots)`. -/
def list_available_slots (fetch : Except String (List (List Item)))
    (start_iso day_end required_min : Int) :
    Option String × List Slot :=
  match fetch with
  | .error e => (some ("Failed to retrieve schedule: " ++ e), [])
  | .ok payload =>
    match free_slots_from_schedule payload start_iso day_end required_min with
    | .ok slots => (none, slots)
    | .error e => (some ("Failed to retrieve schedule: " ++ e), [])

/-- The conflict loop of tools.py `check_specific_time_availability`
(lines 282-298): for each blocking item, parse its timestamps (raising on
failure) and record it as a conflict when
`not (end_dt <= item_start or start_dt >= item_end)`. -/
def conflicts_scan (start_dt end_dt : Int) : List Item → Except String (List Item)
  | [] => .ok []
  | i :: rest =>
    if blocking i.status then
      match i.startT, i.endT with
      | some item_start, some item_end =>
        match conflicts_scan start_dt end_dt rest with
        | .ok r =>
          .ok (if ¬(end_dt ≤ item_start ∨ start_dt ≥ item_end) then i :: r else r)
        | .error msg => .error msg
      | _, _ => .error ("unparsable schedule item")
    else conflicts_scan start_dt end_dt rest

/-- tools.py `check_specific_time_availability` (lines 256-310) on a
proposed slot starting at `start_dt` of `duration_min` minutes
(`end_dt = start_dt + timedelta(minutes=duration_min)`): returns the
conflict list and `is_available = len(conflicts) == 0`. -/
def check_specific_time_availability (start_dt duration_min : Int)
    (items : List Item) : Except String (List Item × Bool) :=
  match conflicts_scan start_dt (start_dt + 60 * duration_min) items with
  | .ok conflicts => .ok (conflicts, conflicts.isEmpty)
  | .error e => .error e

end Tools

namespace MA

/-- A slot dictionary emitted by `_free_slots_from_schedule` in
meeting_assistant.py (no `maxEnd` field). -/
structure Slot where
  start : Int
  stop : Int
  duration_min : Int
deriving DecidableEq, Repr

/-- Busy-period extraction of meeting_assistant.py
`_free_slots_from_schedule` (lines 133-143): the per-item `try/except`
skips an item whose timestamps fail to parse and continues. -/
def busy_periods : List Item → List (Int × Int)
  | [] => []
  | i :: rest =>
    if blocking i.status then
      match i.startT, i.endT with
      | some s, some e => (s, e) :: busy_periods rest
      | _, _ => busy_periods rest
    else busy_periods rest

/-- The sweep loop of meeting_assistant.py `_free_slots_from_schedule`
(lines 151-176): identical to the tools.py sweep except that the gap slot's
end is `current_time + timedelta(minutes=required_min)` with no
`min(..., busy_start)` cap, and no `maxEnd` field is recorded. -/
def sweep (required_min day_end : Int) : List (Int × Int) → Int → List Slot
  | [], current =>
    if current < day_end then
      if 60 * required_min ≤ day_end - current then
        [⟨current, current + 60 * required_min, required_min⟩]
      else []
    else []
  | (busy_start, busy_end) :: rest, current =>
    (if current < busy_start then
      if 60 * required_min ≤ busy_start - current then
        [⟨current, current + 60 * required_min, required_min⟩]
      else []
    else [])
      ++ sweep required_min day_end rest (max current busy_end)

/-- meeting_assistant.py `_free_slots_from_schedule` (lines 126-176). -/
def free_slots_from_schedule (payload : List (List Item))
    (start_iso day_end required_min : Int) : List Slot :=
  sweep required_min day_end (sortByStart (busy_periods (scheduleItems payload)))
    start_iso

/-- meeting_assistant.py `get_schedule` (lines 178-198): any exception in
the fetch is caught and converted to `{"value": [{"scheduleItems": []}]}`,
i.e. the payload `[[]]`. -/
def get_schedule (fetch : Except String (List (List Item))) :
    List (List Item) :=
  match fetch with
  | .ok payload => payload
  | .error _ => [[]]

/-- The fetch-and-generate composition used by
`list_available_slots_tool` / `find_free_time_tool` in
meeting_assistant.py: `get_schedule` (with its empty-schedule fallback)
followed by `_free_slots_from_schedule`. -/
def list_available_slots (fetch : Except String (List (List Item)))
    (start_iso day_end required_min : Int) : List Slot :=
  free_slots_from_schedule (get_schedule fetch) start_iso day_end required_min

end MA

/-! ### Helper lemmas about the stable sort -/

lemma mem_insertByStart (a x : Int × Int) :
    ∀ l : List (Int × Int), x ∈ insertByStart a l ↔ x = a ∨ x ∈ l := by
  intro l
  induction l with
  | nil => simp [insertByStart]
  | cons y ys ih =>
    simp only [insertByStart]
    split
    · simp [List.mem_cons]
    · simp only [List.mem_cons, ih]
      tauto

lemma mem_sortByStart (x : Int × Int) :
    ∀ l : List (Int × Int), x ∈ sortByStart l ↔ x ∈ l := by
  intro l
  induction l with
  | nil => simp [sortByStart]
  | cons y ys ih =>
    simp only [sortByStart, mem_insertByStart, List.mem_cons, ih]

lemma pairwise_insertByStart (a : Int × Int) :
    ∀ l : List (Int × Int),
      List.Pairwise (fun p q : Int × Int => p.1 ≤ q.1) l →
      List.Pairwise (fun p q : Int × Int => p.1 ≤ q.1) (insertByStart a l) := by
  intro l
  induction l with
  | nil => intro _; simp [insertByStart]
  | cons y ys ih =>
    intro h
    rw [List.pairwise_cons] at h
    obtain ⟨hy, hys⟩ := h
    simp only [insertByStart]
    split
    · rename_i hle
      rw [List.pairwise_cons]
      constructor
      · intro b hb
        rcases List.mem_cons.mp hb with hb | hb
        · exact hb ▸ hle
        · exact le_trans hle (hy b hb)
      · rw [List.pairwise_cons]
        exact ⟨hy, hys⟩
    · rename_i hgt
      rw [List.pairwise_cons]
      constructor
      · intro b hb
        rcases (mem_insertByStart a b ys).mp hb with hb | hb
        · subst hb; omega
        · exact hy b hb
      · exact ih hys

lemma pairwise_sortByStart :
    ∀ l : List (Int × Int),
      List.Pairwise (fun p q : Int × Int => p.1 ≤ q.1) (sortByStart l) := by
  intro l
  induction l with
  | nil => simp [sortByStart]
  | cons y ys ih => exact pairwise_insertByStart y (sortByStart ys) ih

/-! ### Helper lemmas about the sweeps -/

/-- Soundness of the tools.py sweep over a list sorted by start: every
emitted slot starts at or after the cursor, ends by `day_end` provided every
busy period starts by `day_end`, and under half-open semantics overlaps no
busy period of the list. -/
lemma Tools.sweep_sound (required_min day_end : Int) :
    ∀ (L : List (Int × Int)) (current : Int),
      List.Pairwise (fun p q : Int × Int => p.1 ≤ q.1) L →
      ∀ s ∈ Tools.sweep required_min day_end L current,
        current ≤ s.start ∧
        ((∀ b ∈ L, b.1 ≤ day_end) → s.stop ≤ day_end) ∧
        ∀ b ∈ L, s.stop ≤ b.1 ∨ b.2 ≤ s.start := by
  intro L
  induction L with
  | nil =>
    intro current _ s hs
    by_cases h1 : current < day_end
    · by_cases h2 : 60 * required_min ≤ day_end - current
      · simp only [Tools.sweep, if_pos h1, if_pos h2, List.mem_singleton] at hs
        subst hs
        refine ⟨le_refl _, fun _ => ?_, by simp⟩
        simp only []
        omega
      · simp [Tools.sweep, h1, h2] at hs
    · simp [Tools.sweep, h1] at hs
  | cons hd tl ih =>
    obtain ⟨bs, be⟩ := hd
    intro current hp s hs
    rw [List.pairwise_cons] at hp
    obtain ⟨hhd, htl⟩ := hp
    simp only [Tools.sweep, List.mem_append] at hs
    rcases hs with hgap | hrec
    · by_cases h1 : current < bs
      · by_cases h2 : 60 * required_min ≤ bs - current
        · simp only [if_pos h1, if_pos h2, List.mem_singleton] at hgap
          subst hgap
          refine ⟨le_refl _, ?_, ?_⟩
          · intro hb
            have := hb (bs, be) (List.mem_cons_self _ _)
            simp only []
            omega
          · intro b hb
            rcases List.mem_cons.mp hb with hb | hb
            · subst hb
              left
              simp only []
              omega
            · left
              have := hhd b hb
              simp only []
              omega
        · simp [h1, h2] at hgap
      · simp [h1] at hgap
    · have h := ih (max current be) htl s hrec
      refine ⟨le_trans (le_max_left _ _) h.1, ?_, ?_⟩
      · intro hb
        exact h.2.1 (fun b hb' => hb b (List.mem_cons_of_mem _ hb'))
      · intro b hb
        rcases List.mem_cons.mp hb with hb | hb
        · subst hb
          right
          calc (bs, be).2 ≤ max current be := le_max_right _ _
            _ ≤ s.start := h.1
        · exact h.2.2 b hb

/-- When the tools.py extraction succeeds, the meeting_assistant.py
extraction produces the same busy-period list. -/
lemma busy_periods_agree :
    ∀ (items : List Item) (B : List (Int × Int)),
      Tools.busy_periods items = .ok B → MA.busy_periods items = B := by
  intro items
  induction items with
  | nil =>
    intro B h
    simp only [Tools.busy_periods, Except.ok.injEq] at h
    simp [MA.busy_periods, ← h]
  | cons i rest ih =>
    intro B h
    by_cases hb : blocking i.status
    · rcases hstart : i.startT with _ | s
      · rw [Tools.busy_periods, if_pos hb, hstart] at h
        rcases hend : i.endT with _ | e <;> rw [hend] at h <;> simp at h
      · rcases hend : i.endT with _ | e
        · rw [Tools.busy_periods, if_pos hb, hstart, hend] at h
          simp at h
        · rw [Tools.busy_periods, if_pos hb, hstart, hend] at h
          cases hrec : Tools.busy_periods rest with
          | ok r =>
            rw [hrec] at h
            simp only [Except.ok.injEq] at h
            rw [MA.busy_periods, if_pos hb, hstart, hend, ih _ hrec]
            exact h
          | error msg =>
            rw [hrec] at h
            simp at h
    · rw [Tools.busy_periods, if_neg hb] at h
      rw [MA.busy_periods, if_neg hb]
      exact ih _ h

/-- The two sweeps agree on the (start, end) instants of every slot: the
`min(current + required_min, busy_start)` cap in tools.py is inactive
whenever a gap slot is emitted. -/
lemma sweep_pairs (required_min day_end : Int) :
    ∀ (L : List (Int × Int)) (current : Int),
      (Tools.sweep required_min day_end L current).map (fun s => (s.start, s.stop))
        = (MA.sweep required_min day_end L current).map (fun s => (s.start, s.stop)) := by
  intro L
  induction L with
  | nil =>
    intro current
    by_cases h1 : current < day_end
    · by_cases h2 : 60 * required_min ≤ day_end - current
      · simp [Tools.sweep, MA.sweep, h1, h2]
      · simp [Tools.sweep, MA.sweep, h1, h2]
    · simp [Tools.sweep, MA.sweep, h1]
  | cons hd tl ih =>
    obtain ⟨bs, be⟩ := hd
    intro current
    by_cases h1 : current < bs
    · by_cases h2 : 60 * required_min ≤ bs - current
      · have hmin : min (current + 60 * required_min) bs = current + 60 * required_min := by
          omega
        simp [Tools.sweep, MA.sweep, h1, h2, hmin, ih]
      · simp [Tools.sweep, MA.sweep, h1, h2, ih]
    · simp [Tools.sweep, MA.sweep, h1, ih]

/-! ### Claim theorems -/

/-- C1: one step of the free-slot sweep of tools.py
`_free_slots_from_schedule`.  For every cursor and busy period
`(busy_start, busy_end)`, the sweep emits a slot starting at the cursor with
end exactly `cursor + required_min` minutes (so the `min(..., busy_start)`
cap never shortens an emitted slot) precisely when `busy_start` is strictly
after the cursor and the gap is at least `required_min` minutes, then
continues on the rest with cursor `max(cursor, busy_end)`, which never moves
the cursor backwards. -/
theorem C1_sweep_step (required_min day_end busy_start busy_end current : Int)
    (rest : List (Int × Int)) :
    (Tools.sweep required_min day_end ((busy_start, busy_end) :: rest) current
      = (if current < busy_start ∧ 60 * required_min ≤ busy_start - current then
          [⟨current, current + 60 * required_min, busy_start, required_min⟩]
        else [])
        ++ Tools.sweep required_min day_end rest (max current busy_end))
    ∧ current ≤ max current busy_end := by
  constructor
  · by_cases h1 : current < busy_start
    · by_cases h2 : 60 * required_min ≤ busy_start - current
      · have hmin : min (current + 60 * required_min) busy_start
            = current + 60 * required_min := by omega
        simp [Tools.sweep, h1, h2, hmin]
      · simp [Tools.sweep, h1, h2]
    · simp [Tools.sweep, h1]
  · exact le_max_left _ _

/-- C2: concrete scenario 1 of the spec.  Day window 09:00-18:00 (32400 to
64800 seconds), busy periods [09:30, 10:00) and [12:00, 13:00) both with
status "busy", required_min = 30: the generator returns exactly the three
30-minute slots [09:00, 09:30), [10:00, 10:30), [13:00, 13:30) in
chronological order, one fixed-length slot per qualifying gap. -/
theorem C2_scenario1 :
    Tools.free_slots_from_schedule
      [[⟨"busy", some 34200, some 36000⟩, ⟨"busy", some 43200, some 46800⟩]]
      32400 64800 30
      = .ok [⟨32400, 34200, 34200, 30⟩, ⟨36000, 37800, 43200, 30⟩,
             ⟨46800, 48600, 64800, 30⟩] := by
  rfl

/-- C3: with an empty busy list (payload with no schedule data) and a day
window with `start < end`, the generator returns exactly one slot of exactly
`required_min` minutes starting at the window start when `required_min` is
at most the window length in minutes, and the empty list when it exceeds
it. -/
theorem C3_empty_schedule (ws we required_min : Int) (h : ws < we) :
    (60 * required_min ≤ we - ws →
      Tools.free_slots_from_schedule [] ws we required_min
        = .ok [⟨ws, ws + 60 * required_min, we, required_min⟩])
    ∧ (we - ws < 60 * required_min →
      Tools.free_slots_from_schedule [] ws we required_min = .ok []) := by
  constructor
  · intro hd
    simp [Tools.free_slots_from_schedule, scheduleItems, Tools.busy_periods,
      sortByStart, Tools.sweep, h, hd]
  · intro hd
    have hnot : ¬(60 * required_min ≤ we - ws) := by omega
    simp [Tools.free_slots_from_schedule, scheduleItems, Tools.busy_periods,
      sortByStart, Tools.sweep, h, hnot]

/-- Witness for C3 at the 09:00-18:00 window with required_min = 30. -/
theorem C3_empty_schedule_witness :
    (32400 : Int) < 64800 ∧
      Tools.free_slots_from_schedule [] 32400 64800 30
        = .ok [⟨32400, 34200, 64800, 30⟩] :=
  ⟨by decide, (C3_empty_schedule 32400 64800 30 (by decide)).1 (by decide)⟩

/-- C4 counterexample: with day window [09:00, 10:00) (32400 to 36000) and
the single busy period [12:00, 13:00) starting after the window's end,
required_min = 120, the generator emits the slot [09:00, 11:00), whose end
39600 exceeds the window end 36000 — the slot does not lie within the
window. -/
theorem C4_counterexample :
    Tools.free_slots_from_schedule [[⟨"busy", some 43200, some 46800⟩]]
      32400 36000 120
      = .ok [⟨32400, 39600, 43200, 120⟩]
    ∧ ¬((39600 : Int) ≤ 36000) :=
  ⟨rfl, by decide⟩

/-- C4 amended: for every payload, window and required_min >= 1, every
emitted slot starts at or after the window start and overlaps no extracted
blocking busy period (half-open semantics), both unconditionally; the slot
end stays within the window provided every blocking busy period starts no
later than the window end (without that proviso a gap slot can extend past
the window end, as the counterexample shows). -/
theorem C4_slots_within_window (payload : List (List Item))
    (ws we required_min : Int) (B : List (Int × Int)) (slots : List Tools.Slot)
    (hR : 1 ≤ required_min)
    (hB : Tools.busy_periods (scheduleItems payload) = .ok B)
    (hs : Tools.free_slots_from_schedule payload ws we required_min = .ok slots) :
    ∀ s ∈ slots,
      ws ≤ s.start
      ∧ ((∀ b ∈ B, b.1 ≤ we) → s.stop ≤ we)
      ∧ ∀ b ∈ B, s.stop ≤ b.1 ∨ b.2 ≤ s.start := by
  simp only [Tools.free_slots_from_schedule, hB, Except.ok.injEq] at hs
  subst hs
  intro s hmem
  have h := Tools.sweep_sound required_min we (sortByStart B) ws
    (pairwise_sortByStart B) s hmem
  refine ⟨h.1, ?_, ?_⟩
  · intro hbound
    refine h.2.1 ?_
    intro b hb
    exact hbound b ((mem_sortByStart b B).mp hb)
  · intro b hb
    exact h.2.2 b ((mem_sortByStart b B).mpr hb)

/-- Witness for C4 at concrete scenario 1: the first emitted slot
[09:00, 09:30) lies in the window and does not overlap the busy period
[09:30, 10:00). -/
theorem C4_slots_within_window_witness :
    ((32400 : Int) ≤ 32400 ∧ (34200 : Int) ≤ 64800)
    ∧ ((34200 : Int) ≤ 34200 ∨ (36000 : Int) ≤ 32400) := by
  have h := C4_slots_within_window
    [[⟨"busy", some 34200, some 36000⟩, ⟨"busy", some 43200, some 46800⟩]]
    32400 64800 30 [(34200, 36000), (43200, 46800)]
    [⟨32400, 34200, 34200, 30⟩, ⟨36000, 37800, 43200, 30⟩,
     ⟨46800, 48600, 64800, 30⟩]
    (by decide) rfl rfl
  have h1 := h ⟨32400, 34200, 34200, 30⟩ (by decide)
  exact ⟨⟨h1.1, h1.2.1 (by decide)⟩, h1.2.2 (34200, 36000) (by decide)⟩

/-- Membership characterisation of the conflict loop of
`check_specific_time_availability`: an item lands in the conflict list
exactly when it is a blocking input item whose parsed interval `(b0, b1)`
satisfies `NOT (end_dt <= b0 OR start_dt >= b1)`. -/
lemma conflicts_scan_mem (a0 a1 : Int) :
    ∀ (items cs : List Item),
      Tools.conflicts_scan a0 a1 items = .ok cs →
      ∀ j, j ∈ cs ↔ (j ∈ items ∧ blocking j.status = true ∧
        ∃ b0 b1, j.startT = some b0 ∧ j.endT = some b1 ∧
          ¬(a1 ≤ b0 ∨ a0 ≥ b1)) := by
  intro items
  induction items with
  | nil =>
    intro cs h j
    simp only [Tools.conflicts_scan, Except.ok.injEq] at h
    subst h
    simp
  | cons i rest ih =>
    intro cs h j
    by_cases hb : blocking i.status
    · rcases hstart : i.startT with _ | b0
      · rw [Tools.conflicts_scan, if_pos hb, hstart] at h
        rcases hend : i.endT with _ | b1 <;> rw [hend] at h <;> simp at h
      · rcases hend : i.endT with _ | b1
        · rw [Tools.conflicts_scan, if_pos hb, hstart, hend] at h
          simp at h
        · rw [Tools.conflicts_scan, if_pos hb, hstart, hend] at h
          cases hrec : Tools.conflicts_scan a0 a1 rest with
          | error msg =>
            rw [hrec] at h
            simp at h
          | ok r =>
            rw [hrec] at h
            simp only [Except.ok.injEq] at h
            have ihr := ih r hrec
            by_cases hov : ¬(a1 ≤ b0 ∨ a0 ≥ b1)
            · rw [if_pos hov] at h
              subst h
              constructor
              · intro hj
                rcases List.mem_cons.mp hj with hj | hj
                · subst hj
                  exact ⟨List.mem_cons_self _ _, hb, b0, b1, hstart, hend, hov⟩
                · have hr := (ihr j).mp hj
                  exact ⟨List.mem_cons_of_mem _ hr.1, hr.2⟩
              · rintro ⟨hjm, hjb, b0', b1', hs', he', hov'⟩
                rcases List.mem_cons.mp hjm with hj | hj
                · subst hj
                  exact List.mem_cons_self _ _
                · exact List.mem_cons_of_mem _
                    ((ihr j).mpr ⟨hj, hjb, b0', b1', hs', he', hov'⟩)
            · rw [if_neg hov] at h
              subst h
              constructor
              · intro hj
                have hr := (ihr j).mp hj
                exact ⟨List.mem_cons_of_mem _ hr.1, hr.2⟩
              · rintro ⟨hjm, hjb, b0', b1', hs', he', hov'⟩
                rcases List.mem_cons.mp hjm with hj | hj
                · subst hj
                  rw [hstart] at hs'
                  rw [hend] at he'
                  injection hs' with hb0
                  injection he' with hb1
                  subst hb0
                  subst hb1
                  exact absurd hov' hov
                · exact (ihr j).mpr ⟨hj, hjb, b0', b1', hs', he', hov'⟩
    · rw [Tools.conflicts_scan, if_neg hb] at h
      have ihr := ih cs h
      constructor
      · intro hj
        have hr := (ihr j).mp hj
        exact ⟨List.mem_cons_of_mem _ hr.1, hr.2⟩
      · rintro ⟨hjm, hjb, rest'⟩
        rcases List.mem_cons.mp hjm with hj | hj
        · subst hj
          exact absurd hjb hb
        · exact (ihr j).mpr ⟨hj, hjb, rest'⟩

/-- C5: `check_specific_time_availability` on a proposed interval
`A = (a0, a0 + duration)` reports a blocking busy period `B = (b0, b1)` as a
conflict if and only if `NOT (a1 <= b0 OR a0 >= b1)`; `is_available` is true
exactly when the conflict list is empty; and the touching-endpoint example
(proposed [10:00, 10:30) against busy [10:30, 11:00)) yields no conflict. -/
theorem C5_overlap_semantics (start_dt duration_min : Int)
    (items cs : List Item) (avail : Bool)
    (h : Tools.check_specific_time_availability start_dt duration_min items
      = .ok (cs, avail)) :
    (∀ j, j ∈ cs ↔ (j ∈ items ∧ blocking j.status = true ∧
      ∃ b0 b1, j.startT = some b0 ∧ j.endT = some b1 ∧
        ¬(start_dt + 60 * duration_min ≤ b0 ∨ start_dt ≥ b1)))
    ∧ (avail = true ↔ cs = [])
    ∧ Tools.check_specific_time_availability 36000 30
        [⟨"busy", some 37800, some 39600⟩] = .ok ([], true) := by
  cases hscan : Tools.conflicts_scan start_dt (start_dt + 60 * duration_min) items with
  | error e =>
    rw [Tools.check_specific_time_availability, hscan] at h
    simp at h
  | ok r =>
    rw [Tools.check_specific_time_availability, hscan] at h
    simp only [Except.ok.injEq, Prod.mk.injEq] at h
    obtain ⟨hcs, havail⟩ := h
    subst hcs
    subst havail
    refine ⟨conflicts_scan_mem _ _ items r hscan, ?_, rfl⟩
    cases r <;> simp

/-- Witness for C5 at concrete scenario 3: proposed [09:00, 09:45) against
busy [09:30, 10:00) — the busy period is reported as a conflict. -/
theorem C5_overlap_semantics_witness :
    (⟨"busy", some 34200, some 36000⟩ : Item)
        ∈ ([⟨"busy", some 34200, some 36000⟩] : List Item)
      ∧ blocking "busy" = true := by
  have h := C5_overlap_semantics 32400 45
    [⟨"busy", some 34200, some 36000⟩]
    [⟨"busy", some 34200, some 36000⟩] false rfl
  have hm := (h.1 ⟨"busy", some 34200, some 36000⟩).mp (by decide)
  exact ⟨hm.1, hm.2.1⟩

/-- C6, failing input for the spec's defensive contract: with
`required_min = 0 < 1` the generator raises nothing and silently computes a
result — here a degenerate zero-length slot at the window start — instead of
an InvalidDuration error (no duration validation exists anywhere in
`_free_slots_from_schedule`). -/
theorem C6_missing_duration_guard :
    Tools.free_slots_from_schedule [] 32400 64800 0
      = .ok [⟨32400, 32400, 64800, 0⟩] := rfl

/-- C7 counterexample: for a payload whose first blocking item has an
unparsable start timestamp and whose second is valid, the tools.py
extraction raises (and the whole generator call fails) instead of skipping
the malformed record and returning the valid busy period. -/
theorem C7_counterexample :
    Tools.busy_periods
        [⟨"busy", none, some 36000⟩, ⟨"busy", some 43200, some 46800⟩]
      = .error ("unparsable busy period")
    ∧ Tools.free_slots_from_schedule
        [[⟨"busy", none, some 36000⟩, ⟨"busy", some 43200, some 46800⟩]]
        32400 64800 30
      = .error ("unparsable busy period") :=
  ⟨rfl, rfl⟩

lemma MA.busy_periods_cons_keep (i : Item) (l : List Item) (s e : Int)
    (hb : blocking i.status = true) (hs : i.startT = some s)
    (he : i.endT = some e) :
    MA.busy_periods (i :: l) = (s, e) :: MA.busy_periods l := by
  rw [MA.busy_periods, if_pos hb, hs, he]

lemma MA.busy_periods_cons_drop (i : Item) (l : List Item)
    (hb : ¬blocking i.status = true) :
    MA.busy_periods (i :: l) = MA.busy_periods l := by
  rw [MA.busy_periods, if_neg hb]

lemma MA.busy_periods_cons_skip (i : Item) (l : List Item)
    (h : i.startT = none ∨ i.endT = none) :
    MA.busy_periods (i :: l) = MA.busy_periods l := by
  by_cases hb : blocking i.status
  · rcases hs : i.startT with _ | s
    · rw [MA.busy_periods, if_pos hb, hs]
    · rcases he : i.endT with _ | e
      · rw [MA.busy_periods, if_pos hb, hs, he]
      · rcases h with h | h
        · rw [hs] at h
          simp at h
        · rw [he] at h
          simp at h
  · rw [MA.busy_periods, if_neg hb]

/-- C7 amended (meeting_assistant.py extraction): a schedule item whose
start or end timestamp fails to parse is skipped, and the extraction still
returns the busy periods of all the other items, with no exception — the
extraction is a total function.  (The tools.py extraction instead raises,
see the counterexample.) -/
theorem C7_extractor_skips_malformed (pre post : List Item) (i : Item)
    (h : i.startT = none ∨ i.endT = none) :
    MA.busy_periods (pre ++ i :: post) = MA.busy_periods (pre ++ post) := by
  induction pre with
  | nil =>
    simpa using MA.busy_periods_cons_skip i post h
  | cons p pre' ih =>
    simp only [List.cons_append]
    by_cases hb : blocking p.status
    · rcases hs : p.startT with _ | s
      · rw [MA.busy_periods_cons_skip p _ (Or.inl hs),
          MA.busy_periods_cons_skip p _ (Or.inl hs)]
        exact ih
      · rcases he : p.endT with _ | e
        · rw [MA.busy_periods_cons_skip p _ (Or.inr he),
            MA.busy_periods_cons_skip p _ (Or.inr he)]
          exact ih
        · rw [MA.busy_periods_cons_keep p _ s e hb hs he,
            MA.busy_periods_cons_keep p _ s e hb hs he, ih]
    · rw [MA.busy_periods_cons_drop p _ hb, MA.busy_periods_cons_drop p _ hb]
      exact ih

/-- Witness for C7: a malformed record between two valid ones is dropped
while both valid busy periods are kept. -/
theorem C7_extractor_skips_malformed_witness :
    MA.busy_periods
        [⟨"busy", some 3600, some 7200⟩, ⟨"busy", none, some 36000⟩,
         ⟨"busy", some 43200, some 46800⟩]
      = MA.busy_periods
          [⟨"busy", some 3600, some 7200⟩, ⟨"busy", some 43200, some 46800⟩] :=
  C7_extractor_skips_malformed
    [⟨"busy", some 3600, some 7200⟩] [⟨"busy", some 43200, some 46800⟩]
    ⟨"busy", none, some 36000⟩ (Or.inl rfl)

/-- C8 counterexample: with `working_start = 23` the validation of
`list_available_slots` produces the end hour
`max(working_start + 1, min(23, 18)) = 24`, which is outside [0, 23], and
the subsequent `dt.time(hour=24)` in `_iso_day_window` raises — the window
construction fails. -/
theorem C8_counterexample :
    Tools.clamp_hours 23 18 = (23, 24)
    ∧ Tools.window_after_validation 23 18 = none :=
  ⟨rfl, rfl⟩

/-- C8 amended: for every pair of integer working-hour arguments, the
validated start hour lies in [0, 23] and the validated end hour lies in
[start + 1, 24]; the same-day instant construction succeeds whenever the
original start argument is at most 22, and fails (end hour 24 is out of
range for `dt.time`) whenever it is 23 or more. -/
theorem C8_clamped_window (working_start working_end : Int) :
    (0 ≤ (Tools.clamp_hours working_start working_end).1
      ∧ (Tools.clamp_hours working_start working_end).1 ≤ 23)
    ∧ (Tools.clamp_hours working_start working_end).1 + 1
        ≤ (Tools.clamp_hours working_start working_end).2
    ∧ (Tools.clamp_hours working_start working_end).2 ≤ 24
    ∧ (working_start ≤ 22 →
        Tools.window_after_validation working_start working_end
          = some (3600 * (Tools.clamp_hours working_start working_end).1,
              3600 * (Tools.clamp_hours working_start working_end).2))
    ∧ (23 ≤ working_start →
        Tools.window_after_validation working_start working_end = none) := by
  have hc : Tools.clamp_hours working_start working_end
      = (max 0 (min 23 working_start),
         max (max 0 (min 23 working_start) + 1) (min 23 working_end)) := rfl
  have hw : Tools.window_after_validation working_start working_end
      = Tools.iso_day_window (max 0 (min 23 working_start))
          (max (max 0 (min 23 working_start) + 1) (min 23 working_end)) := rfl
  rw [hc, hw]
  refine ⟨⟨?_, ?_⟩, ?_, ?_, ?_, ?_⟩
  · show (0 : Int) ≤ max 0 (min 23 working_start)
    omega
  · show max 0 (min 23 working_start) ≤ 23
    omega
  · show max 0 (min 23 working_start) + 1
      ≤ max (max 0 (min 23 working_start) + 1) (min 23 working_end)
    omega
  · show max (max 0 (min 23 working_start) + 1) (min 23 working_end) ≤ 24
    omega
  · intro h
    have h1 : (0 : Int) ≤ max 0 (min 23 working_start)
        ∧ max 0 (min 23 working_start) ≤ 23 := by omega
    have h2 : (0 : Int)
          ≤ max (max 0 (min 23 working_start) + 1) (min 23 working_end)
        ∧ max (max 0 (min 23 working_start) + 1) (min 23 working_end) ≤ 23 := by
      omega
    rw [Tools.iso_day_window, if_pos h1, if_pos h2]
  · intro h
    have h1 : (0 : Int) ≤ max 0 (min 23 working_start)
        ∧ max 0 (min 23 working_start) ≤ 23 := by omega
    have h2 : ¬((0 : Int)
          ≤ max (max 0 (min 23 working_start) + 1) (min 23 working_end)
        ∧ max (max 0 (min 23 working_start) + 1) (min 23 working_end) ≤ 23) := by
      omega
    rw [Tools.iso_day_window, if_pos h1, if_neg h2]

/-- Witness for C8 at working hours 9-18: the window resolves to
[09:00, 18:00] in seconds. -/
theorem C8_clamped_window_witness :
    Tools.window_after_validation 9 18 = some (32400, 64800) := by
  have h := (C8_clamped_window 9 18).2.2.2.1 (by decide)
  simpa using h

/-- C9 counterexample: when the remote fetch fails, the tools.py
availability listing does not treat the failure as "no busy periods known":
it returns an error result with an empty slot list (zero availability),
while the meeting_assistant.py listing returns the empty-schedule
availability. -/
theorem C9_counterexample :
    Tools.list_available_slots (.error "timeout") 32400 64800 30
      = (some ("Failed to retrieve schedule: timeout"), [])
    ∧ MA.list_available_slots (.error "timeout") 32400 64800 30
      = [⟨32400, 34200, 30⟩] :=
  ⟨rfl, rfl⟩

/-- C9 amended: in meeting_assistant.py, `get_schedule` converts any fetch
failure into the empty-schedule payload, so the availability listing built
on it reports exactly the availability of a day with no busy periods. -/
theorem C9_failure_treated_as_no_busy (e : String)
    (ws we required_min : Int) :
    MA.list_available_slots (.error e) ws we required_min
      = MA.free_slots_from_schedule [] ws we required_min := rfl

/-- C10: whenever the tools.py generator returns a slot list, its slots
carry exactly the same (start, end) instants as the meeting_assistant.py
generator on the same payload, window and duration: the
`min(cursor + required_min, busy_start)` cap of tools.py is inactive on
every emitted slot, so the capped and uncapped sweeps coincide. -/
theorem C10_generators_agree (payload : List (List Item))
    (ws we required_min : Int) (ts : List Tools.Slot)
    (h : Tools.free_slots_from_schedule payload ws we required_min = .ok ts) :
    ts.map (fun s => (s.start, s.stop))
      = (MA.free_slots_from_schedule payload ws we required_min).map
          (fun s => (s.start, s.stop)) := by
  cases hB : Tools.busy_periods (scheduleItems payload) with
  | error msg =>
    rw [Tools.free_slots_from_schedule, hB] at h
    simp at h
  | ok B =>
    rw [Tools.free_slots_from_schedule, hB] at h
    simp only [Except.ok.injEq] at h
    subst h
    rw [MA.free_slots_from_schedule, busy_periods_agree _ B hB]
    exact sweep_pairs required_min we (sortByStart B) ws

/-- Witness for C10 at concrete scenario 1. -/
theorem C10_generators_agree_witness :
    ([⟨32400, 34200, 34200, 30⟩, ⟨36000, 37800, 43200, 30⟩,
      ⟨46800, 48600, 64800, 30⟩] : List Tools.Slot).map
        (fun s => (s.start, s.stop))
      = (MA.free_slots_from_schedule
          [[⟨"busy", some 34200, some 36000⟩, ⟨"busy", some 43200, some 46800⟩]]
          32400 64800 30).map (fun s => (s.start, s.stop)) :=
  C10_generators_agree _ 32400 64800 30 _ rfl
